import Mathlib

/-!
Verification of the ChemPristine CSV ingestion and normalization pipeline.

The definitions below are a shallow embedding of the upload page logic
(column resolution, row normalization, row filtering, summary aggregation,
retention enforcement) and of the relational schema of the
equipment_data table.  Strings are modelled as lists of characters,
JavaScript numbers as rationals, and the JavaScript value null as
Option.none.
-/

namespace ChemPristine

/-- Strings are modelled as lists of characters. -/
abbrev Str := List Char

/-- Conversion from a Lean string literal to the list-of-characters model. -/
def toL (s : String) : Str := s.toList

/-- The whitespace characters removed by the JavaScript trim operation and
skipped by parseFloat (ASCII subset; the headers and values in this
development are ASCII). -/
def isWs (c : Char) : Bool :=
  c = ' ' || c = '\t' || c = '\n' || c = '\r' || c = '\x0b' || c = '\x0c'

/-- Lowercasing, character by character (ASCII, as in toLowerCase on the
ASCII headers the pipeline sees). -/
def lower (s : Str) : Str := s.map Char.toLower

/-- The sentinel value used for unresolved text fields. -/
def unknownStr : Str := toL "Unknown"

/-- One header matches one synonym pattern when the lowercased header
contains the lowercased pattern as a contiguous substring.  This embeds
the test k.toLowerCase().includes(p.toLowerCase()) from findColumn. -/
def headerMatches (k p : Str) : Bool := decide ((lower p) <:+: (lower k))

/-- The column resolver from the upload page: the first key, in original
order, whose lowercased text contains any of the patterns.  This embeds
keys.find(k patterns.some(p k.toLowerCase().includes(p.toLowerCase()))). -/
def findColumn (keys : List Str) (patterns : List Str) : Option Str :=
  keys.find? (fun k => patterns.any (fun p => headerMatches k p))

/-- Synonym patterns for equipment_name, in source order. -/
def namePatterns : List Str := [toL "equipment name", toL "name", toL "equipment"]

/-- Synonym patterns for equipment_type, in source order. -/
def typePatterns : List Str := [toL "type", toL "equipment type"]

/-- Synonym patterns for flowrate, in source order. -/
def flowPatterns : List Str := [toL "flowrate", toL "flow rate", toL "flow"]

/-- Synonym patterns for pressure, in source order. -/
def pressPatterns : List Str := [toL "pressure", toL "press"]

/-- Synonym patterns for temperature, in source order. -/
def tempPatterns : List Str := [toL "temperature", toL "temp"]

/-- A raw CSV record: an association list from header to raw value, in
the original header order (papaparse builds its row objects in header
order, and Object.keys returns that order). -/
abbrev RawRecord := List (Str × Str)

/-- The keys of a raw record, in order (Object.keys). -/
def rowKeys (r : RawRecord) : List Str := r.map Prod.fst

/-- Property lookup on a raw record (first binding wins). -/
def rowGet (r : RawRecord) (k : Str) : Option Str :=
  (r.find? (fun kv => decide (kv.fst = k))).map Prod.snd

/-- The JavaScript trim operation: remove leading and trailing
whitespace. -/
def trim (s : Str) : Str := (s.dropWhile isWs).rdropWhile isWs

/-- Value of a string of decimal digits. -/
def digitsToNat (ds : Str) : Nat := ds.foldl (fun n c => 10 * n + (c.toNat - 48)) 0

/-- The JavaScript parseFloat builtin on the decimal and scientific
grammar: skip leading whitespace, then read the longest prefix of the
form sign, digits, optional point and digits, optional exponent with at
least one digit.  none models the not-a-number result (no valid prefix).
The Infinity production is not modelled; no claim concerns it. -/
def parseFloat (s : Str) : Option ℚ :=
  let t := s.dropWhile isWs
  let neg : Bool := t.head? = some '-'
  let t1 := if t.head? = some '-' ∨ t.head? = some '+' then t.tail else t
  let intDs := t1.takeWhile Char.isDigit
  let t2 := t1.dropWhile Char.isDigit
  let fracDs := if t2.head? = some '.' then t2.tail.takeWhile Char.isDigit else []
  let t3 := if t2.head? = some '.' then t2.tail.dropWhile Char.isDigit else t2
  if intDs = [] ∧ fracDs = [] then none
  else
    let e : Int :=
      if t3.head? = some 'e' ∨ t3.head? = some 'E' then
        let r := t3.tail
        let esgn : Int := if r.head? = some '-' then -1 else 1
        let r1 := if r.head? = some '-' ∨ r.head? = some '+' then r.tail else r
        let eds := r1.takeWhile Char.isDigit
        if eds = [] then 0 else esgn * (digitsToNat eds : Int)
      else 0
    -- the parsed value is sign, integer digits, fraction digits, times
    -- 10 to the exponent; it is assembled here as one exact fraction
    let mantNum : Nat := digitsToNat intDs * 10 ^ fracDs.length + digitsToNat fracDs
    let scaledNum : Nat := mantNum * 10 ^ e.toNat
    let num : Int := if neg then -(scaledNum : Int) else (scaledNum : Int)
    let den : Nat := 10 ^ fracDs.length * 10 ^ (-e).toNat
    some (mkRat num den)

/-- Numeric coercion of a raw cell, embedding parseFloat(v) || null:
the JavaScript or-with-null maps every falsy number, that is both the
not-a-number result and zero, to null. -/
def coerceNum (v : Str) : Option ℚ :=
  match parseFloat v with
  | none => none
  | some q => if q = 0 then none else some q

/-- The five resolved columns of one resolution pass. -/
structure ColumnMapping where
  nameCol : Option Str
  typeCol : Option Str
  flowCol : Option Str
  pressCol : Option Str
  tempCol : Option Str
deriving DecidableEq

/-- One resolution pass over a key list: the five findColumn calls of
the upload page, in source order. -/
def resolveColumns (keys : List Str) : ColumnMapping :=
  { nameCol := findColumn keys namePatterns
    typeCol := findColumn keys typePatterns
    flowCol := findColumn keys flowPatterns
    pressCol := findColumn keys pressPatterns
    tempCol := findColumn keys tempPatterns }

/-- A text field of a normalized row, embedding
col ? row[col]?.trim() || sentinel : sentinel (the empty string is
falsy, so an all-whitespace raw value degrades to the sentinel). -/
def textField (col : Option Str) (r : RawRecord) : Str :=
  match col with
  | none => unknownStr
  | some k =>
    match rowGet r k with
    | none => unknownStr
    | some v => if trim v = [] then unknownStr else trim v

/-- A numeric field of a normalized row, embedding
col ? parseFloat(row[col]) || null : null. -/
def numField (col : Option Str) (r : RawRecord) : Option ℚ :=
  match col with
  | none => none
  | some k =>
    match rowGet r k with
    | none => none
    | some v => coerceNum v

/-- The ParsedRow record of the upload page. -/
structure NormalizedRow where
  equipment_name : Str
  equipment_type : Str
  flowrate : Option ℚ
  pressure : Option ℚ
  temperature : Option ℚ
deriving DecidableEq

/-- Normalization of one raw record against a given column mapping. -/
def normalizeWith (m : ColumnMapping) (r : RawRecord) : NormalizedRow :=
  { equipment_name := textField m.nameCol r
    equipment_type := textField m.typeCol r
    flowrate := numField m.flowCol r
    pressure := numField m.pressCol r
    temperature := numField m.tempCol r }

/-- Normalization of one raw record as written in the source: the
columns are resolved from the keys of that very record (the body of the
per-row map callback in parseCSV). -/
def normalizeRow (r : RawRecord) : NormalizedRow :=
  normalizeWith (resolveColumns (rowKeys r)) r

/-- The row filter of parseCSV: keep a row unless both identity fields
are the sentinel. -/
def rowKept (row : NormalizedRow) : Bool :=
  decide (row.equipment_name ≠ unknownStr ∨ row.equipment_type ≠ unknownStr)

/-- The parseCSV completion handler: map every record through the
per-row normalizer, then filter. -/
def parseCSV (records : List RawRecord) : List NormalizedRow :=
  (records.map normalizeRow).filter rowKept

/-- Modelled from the spec: the per-file resolution strategy described
in the data-flow section (Column Resolver runs once per file on the
header list, the resulting mapping is applied to every row).  Used only
to compare with parseCSV, which resolves per row. -/
def parseCSVPerFile (headers : List Str) (records : List RawRecord) : List NormalizedRow :=
  (records.map (normalizeWith (resolveColumns headers))).filter rowKept

/-- The avg helper of handleUpload: arithmetic mean, 0 on the empty
list. -/
def avg (arr : List ℚ) : ℚ := if arr.length > 0 then arr.sum / (arr.length : ℚ) else 0

/-- The non-null flowrate values of the retained rows, embedding
filter(d d.flowrate !== null).map(d d.flowrate). -/
def flowrateValues (rows : List NormalizedRow) : List ℚ :=
  rows.filterMap (fun d => d.flowrate)

/-- The non-null pressure values of the retained rows. -/
def pressureValues (rows : List NormalizedRow) : List ℚ :=
  rows.filterMap (fun d => d.pressure)

/-- The non-null temperature values of the retained rows. -/
def temperatureValues (rows : List NormalizedRow) : List ℚ :=
  rows.filterMap (fun d => d.temperature)

/-- The summary record persisted with an upload (the equipment_type
frequency distribution is modelled separately by typeDistribution). -/
structure UploadSummary where
  avgFlowrate : ℚ
  avgPressure : ℚ
  avgTemperature : ℚ
deriving DecidableEq

/-- The summary computation of handleUpload. -/
def summaryOf (rows : List NormalizedRow) : UploadSummary :=
  { avgFlowrate := avg (flowrateValues rows)
    avgPressure := avg (pressureValues rows)
    avgTemperature := avg (temperatureValues rows) }

/-- The equipment_type frequency distribution of handleUpload, read at
one type value. -/
def typeDistribution (rows : List NormalizedRow) (t : Str) : Nat :=
  (rows.filter (fun d => decide (d.equipment_type = t))).length

/-- An upload record, reduced to the parts the retention enforcer
reads: primary key and creation time. -/
structure Upload where
  id : Nat
  createdAt : Nat
deriving DecidableEq

/-- The retention delete set of handleUpload: when at least 5 uploads
exist, everything after the 4 most recent of the query result (which is
ordered by creation time descending). -/
def retentionToDelete (existing : List Upload) : List Upload :=
  if existing.length ≥ 5 then existing.drop 4 else []

/-- The persistence steps of handleUpload acting on the set of the
current user uploads, with existing given in the order of the retention
query (created_at descending).  queryOk models whether the retention
query returned data (on failure the destructured data is null and the
delete branch is skipped); deleteOk models whether the delete call took
effect.  Neither call result is checked in the source, so the insert of
the new upload happens unconditionally. -/
def handleUpload (existing : List Upload) (queryOk deleteOk : Bool) (newU : Upload) : List Upload :=
  let toDel : List Nat :=
    if queryOk then (retentionToDelete existing).map (fun u => u.id) else []
  let kept := if deleteOk then existing.filter (fun u => decide (¬ u.id ∈ toDel)) else existing
  kept ++ [newU]

/-- One column declaration of the relational schema. -/
structure ColumnDef where
  colName : Str
  colType : Str
  notNull : Bool
deriving DecidableEq

/-- The equipment_data table of the migration, column by column. -/
def equipment_data_columns : List ColumnDef :=
  [⟨toL "id", toL "UUID", true⟩,
   ⟨toL "upload_id", toL "UUID", true⟩,
   ⟨toL "user_id", toL "UUID", true⟩,
   ⟨toL "equipment_name", toL "TEXT", true⟩,
   ⟨toL "equipment_type", toL "TEXT", true⟩,
   ⟨toL "flowrate", toL "NUMERIC", false⟩,
   ⟨toL "pressure", toL "NUMERIC", false⟩,
   ⟨toL "temperature", toL "NUMERIC", false⟩,
   ⟨toL "created_at", toL "TIMESTAMP WITH TIME ZONE", true⟩]

/-- Whether a named column of a table carries NOT NULL. -/
def columnNotNull (cols : List ColumnDef) (n : Str) : Bool :=
  match cols.find? (fun c => decide (c.colName = n)) with
  | some c => c.notNull
  | none => false

/-! ## Helper lemmas -/

/-- find? is determined by the pointwise behaviour of its predicate. -/
lemma find?_congr_fun {α : Type} {p q : α → Bool} :
    ∀ (l : List α), (∀ a ∈ l, p a = q a) → l.find? p = l.find? q := by
  intro l
  induction l with
  | nil => intro _; rfl
  | cons x xs ih =>
    intro h
    have hx := h x (by simp)
    cases hq : q x with
    | true =>
      rw [List.find?_cons_of_pos _ (by simp [hx, hq]), List.find?_cons_of_pos _ (by simp [hq])]
    | false =>
      rw [List.find?_cons_of_neg _ (by simp [hx, hq]), List.find?_cons_of_neg _ (by simp [hq])]
      exact ih (fun a ha => h a (List.mem_cons_of_mem _ ha))

/-- find? returns the element at the first index satisfying the
predicate. -/
lemma find?_first_index {α : Type} {p : α → Bool} :
    ∀ (l : List α) (i : Nat) (hi : i < l.length),
      p (l.get ⟨i, hi⟩) = true →
      (∀ (j : Nat) (hj : j < l.length), j < i → p (l.get ⟨j, hj⟩) = false) →
      l.find? p = some (l.get ⟨i, hi⟩) := by
  intro l
  induction l with
  | nil => intro i hi; simp at hi
  | cons x xs ih =>
    intro i hi hp hbefore
    cases i with
    | zero =>
      exact List.find?_cons_of_pos xs hp
    | succ i' =>
      have hx : p x = false := hbefore 0 (Nat.succ_pos _) (Nat.succ_pos _)
      rw [List.find?_cons_of_neg _ (by simp [hx])]
      have hi' : i' < xs.length := by simpa using hi
      exact ih i' hi' hp
        (fun j hj hji => hbefore (j + 1) (by simpa using hj) (by omega))

/-- A header matching a pattern also matches every sub-pattern of it. -/
lemma headerMatches_mono {k p q : Str} (h : (lower q) <:+: (lower p))
    (hm : headerMatches k p = true) : headerMatches k q = true := by
  simp only [headerMatches, decide_eq_true_iff] at hm ⊢
  exact h.trans hm

/-- Because the string flow is contained in both flowrate and flow rate,
the three flow synonyms together match a header exactly when the single
pattern flow does. -/
lemma any_flowPatterns (k : Str) :
    flowPatterns.any (fun p => headerMatches k p) = headerMatches k (toL "flow") := by
  have h1 : headerMatches k (toL "flowrate") = true → headerMatches k (toL "flow") = true :=
    headerMatches_mono (by decide)
  have h2 : headerMatches k (toL "flow rate") = true → headerMatches k (toL "flow") = true :=
    headerMatches_mono (by decide)
  simp only [flowPatterns, List.any_cons, List.any_nil, Bool.or_false]
  cases hf : headerMatches k (toL "flow") with
  | false =>
    cases hfr : headerMatches k (toL "flowrate") with
    | false =>
      cases hfrs : headerMatches k (toL "flow rate") with
      | false => simp
      | true => exact absurd (h2 hfrs) (by simp [hf])
    | true => exact absurd (h1 hfr) (by simp [hf])
  | true => simp [hf]

/-- any is invariant under permutation of the list. -/
lemma any_perm {α : Type} {l₁ l₂ : List α} (h : l₁.Perm l₂) (f : α → Bool) :
    l₁.any f = l₂.any f := by
  cases h1 : l₁.any f with
  | true =>
    rw [List.any_eq_true] at h1
    obtain ⟨x, hx, hfx⟩ := h1
    exact (List.any_eq_true.mpr ⟨x, h.mem_iff.mp hx, hfx⟩).symm
  | false =>
    cases h2 : l₂.any f with
    | false => rfl
    | true =>
      rw [List.any_eq_true] at h2
      obtain ⟨x, hx, hfx⟩ := h2
      have hcontra : l₁.any f = true := List.any_eq_true.mpr ⟨x, h.mem_iff.mpr hx, hfx⟩
      rw [h1] at hcontra
      exact Bool.noConfusion hcontra

/-! ## Claims -/

/-- C2, counterexample.  The claim requires synonyms to be tested in
synonym-list order with the first matching synonym selecting its first
matching header.  On the header list [flow meter, flowrate] the first
flow synonym, flowrate, matches the header flowrate and does not match
flow meter, so the claimed rule selects flowrate; findColumn instead
returns flow meter, because the source scans headers in header order
and takes the first header matching any synonym. -/
theorem C2_counterexample_synonym_order :
    findColumn [toL "flow meter", toL "flowrate"] flowPatterns = some (toL "flow meter")
    ∧ headerMatches (toL "flowrate") (toL "flowrate") = true
    ∧ headerMatches (toL "flow meter") (toL "flowrate") = false
    ∧ toL "flow meter" ≠ toL "flowrate" := by decide

/-- C2, amended.  The Column Resolver selects the first header, in the
original header order, whose lowercased text contains any of the given
synonym substrings; the order of the synonym list is irrelevant (any
permutation of the synonym list yields the same selection). -/
theorem C2_first_matching_header_wins :
    (∀ (keys patterns : List Str) (i : Nat) (hi : i < keys.length),
        patterns.any (fun p => headerMatches (keys.get ⟨i, hi⟩) p) = true →
        (∀ (j : Nat) (hj : j < keys.length), j < i →
          patterns.any (fun p => headerMatches (keys.get ⟨j, hj⟩) p) = false) →
        findColumn keys patterns = some (keys.get ⟨i, hi⟩))
    ∧ (∀ (keys patterns patterns2 : List Str), patterns.Perm patterns2 →
        findColumn keys patterns = findColumn keys patterns2) := by
  constructor
  · intro keys patterns i hi hp hbefore
    exact find?_first_index keys i hi hp hbefore
  · intro keys patterns patterns2 hperm
    exact find?_congr_fun keys (fun k _ => any_perm hperm _)

/-- C2, witness: on the headers [Name, Temp (C)] the temperature field
resolves to Temp (C), the first (and only) header matching a
temperature synonym. -/
theorem C2_witness :
    findColumn [toL "Name", toL "Temp (C)"] tempPatterns = some (toL "Temp (C)") :=
  C2_first_matching_header_wins.1 [toL "Name", toL "Temp (C)"] tempPatterns 1
    (by decide) (by decide) (by decide)

/-- C3, counterexample.  The claim says a header is selected for at most
one canonical field in a single resolution pass; but the single header
Equipment Type contains both the name synonym equipment and the type
synonym type, and the source applies the five findColumn calls
independently with no exclusion, so the same header is selected for
both equipment_name and equipment_type. -/
theorem C3_counterexample_shared_header :
    (resolveColumns [toL "Equipment Type"]).nameCol = some (toL "Equipment Type")
    ∧ (resolveColumns [toL "Equipment Type"]).typeCol = some (toL "Equipment Type") := by decide

/-- C3, amended.  A header may be selected for more than one canonical
field in a single pass (the five findColumn calls are independent);
a field whose synonyms match no header is left unmapped (none), and
resolution is total, so no error is raised for zero matches. -/
theorem C3_no_match_left_unmapped :
    (∀ (keys patterns : List Str),
        findColumn keys patterns = none ↔
          ∀ k ∈ keys, patterns.any (fun p => headerMatches k p) = false)
    ∧ (resolveColumns [toL "Equipment Type"]).nameCol
        = (resolveColumns [toL "Equipment Type"]).typeCol
    ∧ (resolveColumns [toL "Equipment Type"]).nameCol ≠ none := by
  refine ⟨?_, by decide, by decide⟩
  intro keys patterns
  simp [findColumn, List.find?_eq_none]

/-- C3, witness: a header list with no flow synonym leaves the flowrate
field unmapped. -/
theorem C3_witness : findColumn [toL "abc"] flowPatterns = none :=
  (C3_no_match_left_unmapped.1 [toL "abc"] flowPatterns).mpr (by decide)

/-- C7: whenever some header lowercases to a string containing flow,
the flowrate field resolves to the first such header in the original
header order. -/
theorem C7_flowrate_first_flow_header :
    ∀ (keys : List Str) (i : Nat) (hi : i < keys.length),
      headerMatches (keys.get ⟨i, hi⟩) (toL "flow") = true →
      (∀ (j : Nat) (hj : j < keys.length), j < i →
        headerMatches (keys.get ⟨j, hj⟩) (toL "flow") = false) →
      findColumn keys flowPatterns = some (keys.get ⟨i, hi⟩) := by
  intro keys i hi hp hbefore
  have hcongr : findColumn keys flowPatterns
      = keys.find? (fun k => headerMatches k (toL "flow")) :=
    find?_congr_fun keys (fun k _ => any_flowPatterns k)
  rw [hcongr]
  exact find?_first_index keys i hi hp hbefore

/-- C7, witness: on the headers [Pressure, Flow Rate (m3/h)] the
flowrate field resolves to Flow Rate (m3/h), the first header whose
lowercased text contains flow. -/
theorem C7_witness :
    findColumn [toL "Pressure", toL "Flow Rate (m3/h)"] flowPatterns
      = some (toL "Flow Rate (m3/h)") :=
  C7_flowrate_first_flow_header [toL "Pressure", toL "Flow Rate (m3/h)"] 1
    (by decide) (by decide) (by decide)

/-- C1: the absence branches of the claim hold (an unmapped numeric
field and a non-numeric raw text both give null, and the row is not
aborted), but the value branch fails on the raw text 0: parseFloat
parses it to the number 0, yet the normalized flowrate is null, because
the or-with-null coercion in the source treats the falsy number 0
exactly like the not-a-number result.  The spec (normalizer contract
and error-handling kind d) makes null the outcome of parse failure or
absence only, so the zero case is a slip in the code. -/
theorem C1_zero_value_flowrate_nulled :
    parseFloat (toL "0") = some 0
    ∧ (normalizeRow [(toL "Equipment Name", toL "Pump-1"),
        (toL "Flowrate", toL "0")]).flowrate = none
    ∧ (normalizeRow [(toL "Equipment Name", toL "Pump-1"),
        (toL "Flowrate", toL "abc")]).flowrate = none
    ∧ (normalizeRow [(toL "Equipment Name", toL "Pump-1")]).flowrate = none := by decide

/-- C4: a normalized row is retained exactly when it arises from some
input record and not both identity fields are the sentinel; and a row
whose equipment_type resolved to a value other than the sentinel is
always retained, whatever its equipment_name. -/
theorem C4_retention_filter_iff :
    ∀ (records : List RawRecord) (nr : NormalizedRow),
      (nr ∈ parseCSV records ↔
        ((∃ r ∈ records, normalizeRow r = nr)
          ∧ ¬ (nr.equipment_name = unknownStr ∧ nr.equipment_type = unknownStr)))
      ∧ (∀ r ∈ records, (normalizeRow r).equipment_type ≠ unknownStr →
          normalizeRow r ∈ parseCSV records) := by
  intro records nr
  constructor
  · rw [parseCSV, List.mem_filter]
    simp only [List.mem_map, rowKept, decide_eq_true_iff, not_and_or]
  · intro r hr htype
    rw [parseCSV, List.mem_filter]
    refine ⟨List.mem_map_of_mem _ hr, ?_⟩
    simp only [rowKept, decide_eq_true_iff]
    exact Or.inr htype

/-- C4, witness: a record whose only resolvable column is a type column
with value Pump yields a retained row. -/
theorem C4_witness :
    normalizeRow [(toL "Type", toL "Pump")] ∈ parseCSV [[(toL "Type", toL "Pump")]] :=
  (C4_retention_filter_iff [[(toL "Type", toL "Pump")]]
      (normalizeRow [(toL "Type", toL "Pump")])).2
    [(toL "Type", toL "Pump")] (by decide) (by decide)

/-- C5: each summary average is the sum of the non-null values of that
field over the retained rows divided by their count, and 0 when no
non-null value exists; over flowrates [10, null, 20] the average is 15
and over [null, null] it is 0. -/
theorem C5_average_contract :
    (∀ rows : List NormalizedRow,
        (flowrateValues rows ≠ [] →
          (summaryOf rows).avgFlowrate
            = (flowrateValues rows).sum / ((flowrateValues rows).length : ℚ))
        ∧ (flowrateValues rows = [] → (summaryOf rows).avgFlowrate = 0)
        ∧ (pressureValues rows ≠ [] →
          (summaryOf rows).avgPressure
            = (pressureValues rows).sum / ((pressureValues rows).length : ℚ))
        ∧ (pressureValues rows = [] → (summaryOf rows).avgPressure = 0)
        ∧ (temperatureValues rows ≠ [] →
          (summaryOf rows).avgTemperature
            = (temperatureValues rows).sum / ((temperatureValues rows).length : ℚ))
        ∧ (temperatureValues rows = [] → (summaryOf rows).avgTemperature = 0))
    ∧ (summaryOf [⟨toL "N", toL "T", some 10, none, none⟩,
        ⟨toL "N", toL "T", none, none, none⟩,
        ⟨toL "N", toL "T", some 20, none, none⟩]).avgFlowrate = 15
    ∧ (summaryOf [⟨toL "N", toL "T", none, none, none⟩,
        ⟨toL "N", toL "T", none, none, none⟩]).avgFlowrate = 0 := by
  have havg : ∀ arr : List ℚ,
      (arr ≠ [] → avg arr = arr.sum / (arr.length : ℚ)) ∧ (arr = [] → avg arr = 0) := by
    intro arr
    constructor
    · intro h
      rw [avg, if_pos (List.length_pos.mpr h)]
    · intro h
      subst h
      simp [avg]
  refine ⟨?_, ?_, ?_⟩
  · intro rows
    exact ⟨(havg _).1, (havg _).2, (havg _).1, (havg _).2, (havg _).1, (havg _).2⟩
  · have h : flowrateValues [⟨toL "N", toL "T", some 10, none, none⟩,
        ⟨toL "N", toL "T", none, none, none⟩,
        ⟨toL "N", toL "T", some 20, none, none⟩] = [10, 20] := by decide
    show avg (flowrateValues [⟨toL "N", toL "T", some 10, none, none⟩,
        ⟨toL "N", toL "T", none, none, none⟩,
        ⟨toL "N", toL "T", some 20, none, none⟩]) = 15
    rw [h]
    norm_num [avg]
  · have h : flowrateValues [⟨toL "N", toL "T", none, none, none⟩,
        ⟨toL "N", toL "T", none, none, none⟩] = ([] : List ℚ) := by decide
    show avg (flowrateValues [⟨toL "N", toL "T", none, none, none⟩,
        ⟨toL "N", toL "T", none, none, none⟩]) = 0
    rw [h]
    exact (havg []).2 rfl

/-- C5, witness: for a single row with flowrate 10 the average equals
the sum of the non-null values divided by their count. -/
theorem C5_witness :
    (summaryOf [⟨toL "N", toL "T", some 10, none, none⟩]).avgFlowrate
      = (flowrateValues [⟨toL "N", toL "T", some 10, none, none⟩]).sum
        / ((flowrateValues [⟨toL "N", toL "T", some 10, none, none⟩]).length : ℚ) :=
  (C5_average_contract.1 [⟨toL "N", toL "T", some 10, none, none⟩]).1 (by decide)

/-- C8: when every record of the file carries exactly the file header
list (the uniform-header assumption of the spec), resolving the columns
once per file and resolving them anew inside every row (as the source
does) produce the same normalized output. -/
theorem C8_per_file_equals_per_row :
    ∀ (headers : List Str) (records : List RawRecord),
      (∀ r ∈ records, rowKeys r = headers) →
      parseCSV records = parseCSVPerFile headers records := by
  intro headers records h
  rw [parseCSV, parseCSVPerFile]
  congr 1
  refine List.map_congr_left (fun r hr => ?_)
  rw [normalizeRow, h r hr]

/-- C8, witness: a two-record file with the uniform header Name parses
identically under per-row and per-file resolution. -/
theorem C8_witness :
    parseCSV [[(toL "Name", toL "A")], [(toL "Name", toL "B")]]
      = parseCSVPerFile [toL "Name"] [[(toL "Name", toL "A")], [(toL "Name", toL "B")]] :=
  C8_per_file_equals_per_row [toL "Name"]
    [[(toL "Name", toL "A")], [(toL "Name", toL "B")]] (by decide)

/-- C9: the outcome of the retention step is never consulted — the new
upload is inserted whatever the query and delete results; when the
retention query returns no data, or the delete of the excess uploads
does not take effect, nothing is deleted, and with 5 uploads already
stored the post-insert count is 6, exceeding the cap. -/
theorem C9_retention_failure_unchecked :
    ∀ (existing : List Upload) (newU : Upload),
      existing.length = 5 →
      (∀ queryOk deleteOk : Bool, newU ∈ handleUpload existing queryOk deleteOk newU)
      ∧ handleUpload existing false true newU = existing ++ [newU]
      ∧ handleUpload existing true false newU = existing ++ [newU]
      ∧ 5 < (handleUpload existing true false newU).length := by
  intro existing newU hlen
  have hq : handleUpload existing false true newU = existing ++ [newU] := by
    simp [handleUpload]
  have hd : handleUpload existing true false newU = existing ++ [newU] := by
    simp [handleUpload]
  refine ⟨?_, hq, hd, ?_⟩
  · intro qOk dOk
    simp [handleUpload]
  · rw [hd]
    simp [hlen]

/-- C9, witness: five stored uploads, a failed delete, and one confirmed
upload leave six uploads. -/
theorem C9_witness :
    5 < (handleUpload [⟨1, 10⟩, ⟨2, 9⟩, ⟨3, 8⟩, ⟨4, 7⟩, ⟨5, 6⟩] true false ⟨6, 11⟩).length :=
  (C9_retention_failure_unchecked [⟨1, 10⟩, ⟨2, 9⟩, ⟨3, 8⟩, ⟨4, 7⟩, ⟨5, 6⟩] ⟨6, 11⟩
    (by decide)).2.2.2

/-- C6: with exactly 5 existing uploads, listed in strictly descending
creation order with distinct primary keys, the retention step deletes
exactly the single oldest upload (the one whose creation time is below
every other), and after the insert exactly 5 uploads remain. -/
theorem C6_retention_evicts_oldest :
    ∀ (existing : List Upload) (newU : Upload),
      existing.Pairwise (fun a b => b.createdAt < a.createdAt) →
      existing.length = 5 →
      (existing.map (fun u => u.id)).Nodup →
      ∃ old, retentionToDelete existing = [old]
        ∧ (∀ u ∈ existing, u = old ∨ old.createdAt < u.createdAt)
        ∧ handleUpload existing true true newU = existing.take 4 ++ [newU]
        ∧ (handleUpload existing true true newU).length = 5 := by
  intro existing newU hdesc hlen hids
  match existing, hlen with
  | [a, b, c, d, e], _ =>
    simp only [List.pairwise_cons, List.mem_cons, List.not_mem_nil, or_false,
      List.mem_singleton, List.Pairwise.nil, and_true] at hdesc
    simp only [List.map_cons, List.map_nil, List.nodup_cons, List.mem_cons,
      List.mem_singleton, List.not_mem_nil, or_false, not_or, List.nodup_nil,
      and_true] at hids
    refine ⟨e, by simp [retentionToDelete], ?_, ?_, ?_⟩
    · intro u hu
      simp only [List.mem_cons, List.not_mem_nil, or_false] at hu
      obtain rfl | rfl | rfl | rfl | rfl := hu
      · exact Or.inr (hdesc.1 e (by simp))
      · exact Or.inr (hdesc.2.1 e (by simp))
      · exact Or.inr (hdesc.2.2.1 e (by simp))
      · exact Or.inr (hdesc.2.2.2.1 e (by simp))
      · exact Or.inl rfl
    · have hane : a.id ≠ e.id := hids.1.2.2.2
      have hbne : b.id ≠ e.id := hids.2.1.2.2
      have hcne : c.id ≠ e.id := hids.2.2.1.2
      have hdne : d.id ≠ e.id := hids.2.2.2.1
      simp [handleUpload, retentionToDelete, List.filter_cons, hane, hbne, hcne, hdne]
    · have hane : a.id ≠ e.id := hids.1.2.2.2
      have hbne : b.id ≠ e.id := hids.2.1.2.2
      have hcne : c.id ≠ e.id := hids.2.2.1.2
      have hdne : d.id ≠ e.id := hids.2.2.2.1
      simp [handleUpload, retentionToDelete, List.filter_cons, hane, hbne, hcne, hdne]

/-- C6, witness: on five concrete uploads in descending creation order
the single oldest one is evicted and five uploads remain after the
insert. -/
theorem C6_witness :
    ∃ old, retentionToDelete [⟨1, 10⟩, ⟨2, 9⟩, ⟨3, 8⟩, ⟨4, 7⟩, ⟨5, 6⟩] = [old]
      ∧ (∀ u ∈ ([⟨1, 10⟩, ⟨2, 9⟩, ⟨3, 8⟩, ⟨4, 7⟩, ⟨5, 6⟩] : List Upload),
          u = old ∨ old.createdAt < u.createdAt)
      ∧ handleUpload [⟨1, 10⟩, ⟨2, 9⟩, ⟨3, 8⟩, ⟨4, 7⟩, ⟨5, 6⟩] true true ⟨6, 11⟩
          = ([⟨1, 10⟩, ⟨2, 9⟩, ⟨3, 8⟩, ⟨4, 7⟩, ⟨5, 6⟩] : List Upload).take 4 ++ [⟨6, 11⟩]
      ∧ (handleUpload [⟨1, 10⟩, ⟨2, 9⟩, ⟨3, 8⟩, ⟨4, 7⟩, ⟨5, 6⟩] true true ⟨6, 11⟩).length = 5 :=
  C6_retention_evicts_oldest [⟨1, 10⟩, ⟨2, 9⟩, ⟨3, 8⟩, ⟨4, 7⟩, ⟨5, 6⟩] ⟨6, 11⟩
    (by decide) (by decide) (by decide)

/-- Removing leading and trailing whitespace is idempotent. -/
lemma trim_trim (s : Str) : trim (trim s) = trim s := by
  have hdrop : ((s.dropWhile isWs).rdropWhile isWs).dropWhile isWs
      = (s.dropWhile isWs).rdropWhile isWs := by
    rcases hB : (s.dropWhile isWs).rdropWhile isWs with _ | ⟨x, xs⟩
    · rfl
    · refine List.dropWhile_eq_self_iff.mpr ?_
      intro hl
      have hpre : (s.dropWhile isWs).rdropWhile isWs <+: s.dropWhile isWs :=
        List.rdropWhile_prefix _ _
      rw [hB] at hpre
      obtain ⟨t, ht⟩ := hpre
      have h1 : (s.dropWhile isWs).head? = some x := by rw [← ht]; rfl
      have h3 := List.head?_dropWhile_not isWs s
      rw [h1] at h3
      simp [h3]
  rw [trim, trim, hdrop, List.rdropWhile_idempotent]

/-- A text field of a normalized row is always a non-empty string
unchanged by a further trim: either the sentinel, or the trimmed raw
value when that is non-empty. -/
lemma textField_ok (col : Option Str) (r : RawRecord) :
    textField col r ≠ [] ∧ trim (textField col r) = textField col r := by
  have hunk : (unknownStr ≠ ([] : Str)) ∧ trim unknownStr = unknownStr := by decide
  rcases col with _ | k
  · exact hunk
  · rcases hg : rowGet r k with _ | v
    · simp only [textField, hg]
      exact hunk
    · simp only [textField, hg]
      by_cases ht : trim v = []
      · rw [if_pos ht]
        exact hunk
      · rw [if_neg ht]
        exact ⟨ht, trim_trim v⟩

/-- C10: every retained row carries non-empty identity fields that are
unchanged by a further trim (so they have no leading or trailing
whitespace); an absent column or raw value gives the sentinel, an
all-whitespace raw value gives the sentinel, a present raw value is
stored trimmed; and the persisted schema declares both identity columns
NOT NULL. -/
theorem C10_identity_fields_invariant :
    (∀ (records : List RawRecord) (nr : NormalizedRow), nr ∈ parseCSV records →
        nr.equipment_name ≠ [] ∧ trim nr.equipment_name = nr.equipment_name
        ∧ nr.equipment_type ≠ [] ∧ trim nr.equipment_type = nr.equipment_type)
    ∧ (∀ r : RawRecord, textField none r = unknownStr)
    ∧ (∀ (r : RawRecord) (k v : Str), rowGet r k = some v →
        (trim v = [] → textField (some k) r = unknownStr)
        ∧ (trim v ≠ [] → textField (some k) r = trim v))
    ∧ columnNotNull equipment_data_columns (toL "equipment_name") = true
    ∧ columnNotNull equipment_data_columns (toL "equipment_type") = true := by
  refine ⟨?_, fun r => rfl, ?_, by decide, by decide⟩
  · intro records nr h
    obtain ⟨hmem, -⟩ := List.mem_filter.mp h
    obtain ⟨r, -, rfl⟩ := List.mem_map.mp hmem
    exact ⟨(textField_ok _ _).1, (textField_ok _ _).2,
      (textField_ok _ _).1, (textField_ok _ _).2⟩
  · intro r k v hg
    simp only [textField, hg]
    constructor
    · intro ht
      rw [if_pos ht]
    · intro ht
      rw [if_neg ht]

/-- C10, witness: a record mapping a type column to a padded value
yields a retained row whose equipment_type is non-empty and already
trimmed. -/
theorem C10_witness :
    (normalizeRow [(toL "Type", toL " Pump ")]).equipment_type ≠ []
    ∧ trim (normalizeRow [(toL "Type", toL " Pump ")]).equipment_type
      = (normalizeRow [(toL "Type", toL " Pump ")]).equipment_type := by
  have h := C10_identity_fields_invariant.1 [[(toL "Type", toL " Pump ")]]
    (normalizeRow [(toL "Type", toL " Pump ")]) (by decide)
  exact ⟨h.2.2.1, h.2.2.2⟩

end ChemPristine
